import Mathlib

/-!
Verification development for the Mental Arithmetic Trainer (`MAT.py`).

The file shallowly embeds the core logic of the program:

* `get_answer`        — the calculation engine (MAT.py, lines 537–568);
* `settings_errors`   — the settings validator (lines 488–534);
* `answer_process` / `advance_turn` / `set_new_calculation` — the answer
  pipeline (lines 392–450);
* `countdown` / `stop_game` / `start_game` / `start_game_setup` — the
  session state machine and the timer (lines 267–351, 374–390, 452–474);
* `write_cfg` / `read_cfg`  — the settings store (lines 602–668).

Python machine-level conventions used throughout:

* Python `int` is unbounded, so it is embedded as `Int` (counters that are
  only ever incremented from 0 are embedded as `Nat`).
* Python `int(string)` (which strips surrounding whitespace and accepts an
  optional sign followed by ASCII decimal digits, raising `ValueError`
  otherwise) is embedded as `pyParseInt : String → Option Int`;
  `none` plays the role of the raised `ValueError`.
* `tkinter` widgets are abstracted to the values they hold; dialogs raised
  with `showerror` are surfaced as explicit `Bool` flags in the results.
* `randint` draws are passed in explicitly as oracle lists (`fresh`).
-/

/-! ## Program constants (MAT.py, lines 19–37) -/

def MAX_NUMBERS : Int := 5

def OPERATORS : List String := ["+", "-", "·"]

def RANGE_LIMIT : Int := 1000

def MAX_TIME_LIMIT : Int := 900

/-! ## A model of Python `int(str)` and `str(int)` -/

/-- Python whitespace characters stripped by `int()` / `str.strip()`
(the common ASCII ones). -/
def isPySpace (c : Char) : Bool :=
  c = ' ' ∨ c = '\t' ∨ c = '\n' ∨ c = '\r'

/-- Strip leading and trailing whitespace from a character list, as Python
`int()` does before parsing. -/
def stripChars (cs : List Char) : List Char :=
  ((cs.dropWhile isPySpace).reverse.dropWhile isPySpace).reverse

/-- The numeric value of an ASCII digit character. -/
def valOfChar (c : Char) : Nat := c.toNat - 48

/-- The ASCII character of a decimal digit. -/
def digitChar10 : Nat → Char
  | 0 => '0' | 1 => '1' | 2 => '2' | 3 => '3' | 4 => '4'
  | 5 => '5' | 6 => '6' | 7 => '7' | 8 => '8' | 9 => '9'
  | _ => '*'

/-- Parse a non-empty all-digit character list into a `Nat`
(most significant digit first). -/
def parseDigits (cs : List Char) : Option Nat :=
  if cs ≠ [] ∧ cs.all (fun c => c.isDigit) then
    some (cs.foldl (fun a c => 10 * a + valOfChar c) 0)
  else
    none

/-- The sign-and-digits part of Python `int(string)` after whitespace
stripping. -/
def parseIntCore : List Char → Option Int
  | [] => none
  | c :: rest =>
    if c = '-' then (parseDigits rest).map (fun n => -(n : Int))
    else if c = '+' then (parseDigits rest).map (fun n => (n : Int))
    else (parseDigits (c :: rest)).map (fun n => (n : Int))

/-- Model of Python `int(string)`: strip whitespace, then an optional sign
followed by decimal digits; `none` models the raised `ValueError`. -/
def parseIntChars (cs0 : List Char) : Option Int :=
  parseIntCore (stripChars cs0)

def pyParseInt (s : String) : Option Int :=
  parseIntChars s.data

/-- Model of Python `str(n)` for a natural number: decimal digits, most
significant first. -/
def natToChars (n : Nat) : List Char :=
  if n = 0 then ['0'] else ((Nat.digits 10 n).map digitChar10).reverse

/-- Model of Python `str(v)` for an integer. -/
def pyStrInt (v : Int) : List Char :=
  if v < 0 then '-' :: natToChars v.natAbs else natToChars v.toNat

/-! ## The calculation engine: `get_answer` (MAT.py, lines 537–568) -/

/-- Result of `get_answer`: the returned value together with whether the
`showerror` dialog for an unknown operator was raised. -/
structure EvalResult where
  errorDialog : Bool
  value : Int
  deriving DecidableEq, Repr

/-- Embedding of `get_answer(numbers, op)` (MAT.py, lines 537–568).
Python raises `IndexError` on `numbers[0]` for an empty list in the `-` and
`·` branches; the claims only concern non-empty operand lists, and the
embedding returns 0 there. -/
def get_answer (numbers : List Int) (op : String) : EvalResult :=
  if op = "+" then
    ⟨false, numbers.sum⟩
  else if op = "-" then
    ⟨false, match numbers with
            | [] => 0
            | x :: xs => xs.foldl (fun b i => b - i) x⟩
  else if op = "·" then
    ⟨false, match numbers with
            | [] => 0
            | x :: xs => xs.foldl (fun b i => b * i) x⟩
  else
    -- showerror("No", "This really shouldn't happen. Bug report time."); return 0
    ⟨true, 0⟩

/-! ## The settings validator: `settings_errors` (MAT.py, lines 488–534) -/

/-- The raw field values read off the five input widgets
(`push_settings`, MAT.py lines 296–303); all are strings. -/
structure RawSettings where
  numbercount : String
  range_lower : String
  range_upper : String
  operator : String
  time_limit : String
  deriving DecidableEq, Repr

/-- A coerced settings record (the dictionary after `int()` coercion). -/
structure Settings where
  numbercount : Int
  range_lower : Int
  range_upper : Int
  operator : String
  time_limit : Int
  deriving DecidableEq, Repr

def intErrMsg : String :=
  "All input fields except operator must only contain integers."

def numErrMsg : String :=
  "Number settings: maximum amount of numbers allowed in the calculation is 5."

def rangeErrMsg : String :=
  "Range settings: allowed range for the numbers is from 0 to 1000."

def orderErrMsg : String :=
  "Range settings: lower range must be smaller than upper range."

def opErrMsg : String :=
  "Operator: unsupported operator, choose one from dropdown list."

def timeErrMsg : String :=
  "Time limit: must be between 0 and 900."

/-- Embedding of `settings_errors(s)` (MAT.py, lines 488–534).

The Python loop `for i in s` coerces the numeric fields with `int()` in
dict insertion order (`numbercount`, `range_lower`, `range_upper`,
`time_limit`; `operator` is skipped), returning immediately with the single
generic message on the first `ValueError`.  When all fields coerce, the
five rule checks each append their own message.  The second component
models the processed settings dict (`none` when coercion aborted; the
program never reads the partially-coerced dict it gets back in that case,
it only checks that the error list is non-empty). -/
def settings_errors (s : RawSettings) : List String × Option Settings :=
  match pyParseInt s.numbercount with
  | none => ([intErrMsg], none)
  | some nc =>
  match pyParseInt s.range_lower with
  | none => ([intErrMsg], none)
  | some rl =>
  match pyParseInt s.range_upper with
  | none => ([intErrMsg], none)
  | some ru =>
  match pyParseInt s.time_limit with
  | none => ([intErrMsg], none)
  | some tl =>
    let errs : List String :=
      (if ¬(1 < nc ∧ nc ≤ MAX_NUMBERS) then [numErrMsg] else []) ++
      (if ¬(0 ≤ rl ∧ rl ≤ RANGE_LIMIT) ∨ ¬(0 ≤ ru ∧ ru ≤ RANGE_LIMIT) then
        [rangeErrMsg] else []) ++
      (if rl ≥ ru then [orderErrMsg] else []) ++
      (if s.operator ∉ OPERATORS then [opErrMsg] else []) ++
      (if ¬(-1 < tl ∧ tl < MAX_TIME_LIMIT) then [timeErrMsg] else [])
    (errs, some ⟨nc, rl, ru, s.operator, tl⟩)

/-! ## The session state machine (`ArithmeticProgram`) -/

/-- The mutable program state relevant to the session controller.

* `answersCorrect`, `answersAll` — `self.__answers_correct` / `__answers_all`;
* `stoptimer`                    — `self.__stoptimer`;
* `timeLeft`                     — the `IntVar` `self.__time_left`;
* `resultsCur`, `resultsPrev`    — the `StringVar`s `__results_cur` / `__results_prev`;
* `settings`                     — `self.__settings` (after coercion);
* `numbersInUse`                 — the values of `self.__numbers_in_use` (the current equation's operands);
* `uinput`                       — the contents of the answer entry `self.__uanswer`;
* `running`                      — abstraction of the widget enable states
  (`running_active_widgets` enabled / `stopped_active_widgets` disabled);
* `pending`                      — the argument of the countdown callback
  scheduled via `window.after`, if one is scheduled. -/
structure GameState where
  answersCorrect : Nat
  answersAll : Nat
  stoptimer : Bool
  timeLeft : Int
  resultsCur : String
  resultsPrev : String
  settings : Settings
  numbersInUse : List Int
  uinput : String
  running : Bool
  pending : Option Int
  deriving DecidableEq, Repr

/-- Embedding of `stop_game(self)` (MAT.py, lines 452–474): set the stop
flag, zero the displayed time, clear the answer entry, flip the widget
states, and flush the answer counters.  The scheduled countdown callback is
not cancelled (`pending` is untouched); its next firing checks the flag. -/
def stop_game (st : GameState) : GameState :=
  { st with
    stoptimer := true
    timeLeft := 0
    uinput := ""
    running := false
    answersCorrect := 0
    answersAll := 0 }

/-- Embedding of `countdown(self, count)` (MAT.py, lines 374–390) as the
body of one invocation.  An invocation that returns without calling
`window.after` leaves no scheduled callback (`pending := none`); the
`count > 0` branch schedules `countdown(count - 1)`. -/
def countdown (count : Int) (st : GameState) : GameState :=
  if st.stoptimer then
    { st with pending := none }
  else if count > 0 then
    { st with timeLeft := count - 1, pending := some (count - 1) }
  else
    stop_game { st with pending := none }

/-- The host timer firing the scheduled countdown callback (one
`window.after` delivery).  With nothing scheduled it is a no-op. -/
def tick (st : GameState) : GameState :=
  match st.pending with
  | none => st
  | some c => countdown c { st with pending := none }

/-- Embedding of `start_game_setup(self)` (MAT.py, lines 323–350): flip the
widget states, reset the stop flag, transfer a non-empty current score to
the previous display, and run `set_new_calculation` (fresh operands drawn
by `randint` are passed in as the oracle `fresh`; the answer entry is
cleared). -/
def start_game_setup (st : GameState) (fresh : List Int) : GameState :=
  { st with
    running := true
    stoptimer := false
    resultsPrev := if st.resultsCur ≠ "" then st.resultsCur else st.resultsPrev
    resultsCur := if st.resultsCur ≠ "" then "" else st.resultsCur
    numbersInUse := fresh
    uinput := "" }

/-- Embedding of `start_game(self)` together with `push_settings`
(MAT.py, lines 267–321): validate the raw field values; on any error leave
the state unchanged (the error dialog is outside the controller state); on
success adopt the coerced settings, run `start_game_setup`, and invoke
`countdown(time_limit)` when the time limit is non-zero. -/
def start_game (st : GameState) (raw : RawSettings) (fresh : List Int) :
    GameState :=
  match settings_errors raw with
  | ([], some ps) =>
    let st1 := start_game_setup { st with settings := ps } fresh
    if ps.time_limit ≠ 0 then countdown ps.time_limit st1 else st1
  | _ => st

/-- Embedding of `advance_turn(self, correct)` (MAT.py, lines 421–435):
bump the counters, refresh the current-score display, and show the next
calculation (fresh operands `fresh`, entry cleared). -/
def advance_turn (st : GameState) (correct : Bool) (fresh : List Int) :
    GameState :=
  let allCount := st.answersAll + 1
  let corCount := if correct then st.answersCorrect + 1 else st.answersCorrect
  { st with
    answersAll := allCount
    answersCorrect := corCount
    resultsCur := toString corCount ++ " / " ++ toString allCount
    numbersInUse := fresh
    uinput := "" }

/-- Embedding of `answer_process(self, uanswer)` (MAT.py, lines 392–419).
The returned `Bool` records whether the "Bad input" `showerror` dialog was
raised.  `int(uanswer)` succeeding corresponds to `pyParseInt u = some v`;
`ValueError` to `none`, in which case the empty string is a skip and
anything else clears the entry and raises the dialog. -/
def answer_process (st : GameState) (u : String) (fresh : List Int) :
    GameState × Bool :=
  let answer := (get_answer st.numbersInUse st.settings.operator).value
  match pyParseInt u with
  | some v =>
    if v = answer then (advance_turn st true fresh, false)
    else (advance_turn st false fresh, false)
  | none =>
    if u = "" then (advance_turn st false fresh, false)
    else ({ st with uinput := "" }, true)

/-! ## The settings store: `write_cfg` / `read_cfg` (MAT.py, lines 602–668) -/

/-- One `name;value` line of the config file. -/
def cfgLine (key : String) (value : List Char) : List Char :=
  key.data ++ ';' :: value

/-- Embedding of `write_cfg(settings)` (MAT.py, lines 602–617): one
`name;value` line per setting, in the dict insertion order
(`numbercount`, `range_lower`, `range_upper`, `operator`, `time_limit`),
joined with `"\n"` (so no trailing newline).  The result is the file
content as a character list. -/
def write_cfg (s : Settings) : List Char :=
  cfgLine "numbercount" (pyStrInt s.numbercount) ++ '\n' ::
  (cfgLine "range_lower" (pyStrInt s.range_lower) ++ '\n' ::
  (cfgLine "range_upper" (pyStrInt s.range_upper) ++ '\n' ::
  (cfgLine "operator" s.operator.data ++ '\n' ::
  cfgLine "time_limit" (pyStrInt s.time_limit))))

/-- Split a character list at every occurrence of `c` (Python
`str.split(c)` / the division of a file into lines). -/
def splitOnChar (c : Char) : List Char → List (List Char)
  | [] => [[]]
  | x :: xs =>
    match splitOnChar c xs with
    | [] => [[x]]
    | y :: ys => if x = c then [] :: y :: ys else (x :: y) :: ys

/-- Python `str.rstrip()`: drop trailing whitespace. -/
def rstripChars (cs : List Char) : List Char :=
  (cs.reverse.dropWhile isPySpace).reverse

/-- The settings dictionary while `read_cfg` is filling it: each of the
five required keys may or may not have been seen yet.  Unknown keys are
also stored by the Python dict, but the final presence check only looks at
the five required ones, so they are not tracked. -/
structure CfgAcc where
  numbercount : Option Int
  range_lower : Option Int
  range_upper : Option Int
  operator : Option (List Char)
  time_limit : Option Int
  deriving DecidableEq, Repr

def CfgAcc.empty : CfgAcc := ⟨none, none, none, none, none⟩

/-- Store one parsed `key = value` pair in the accumulating dictionary. -/
def CfgAcc.store (t : CfgAcc) (key : List Char) (v : Int) : CfgAcc :=
  if key = "numbercount".data then { t with numbercount := some v }
  else if key = "range_lower".data then { t with range_lower := some v }
  else if key = "range_upper".data then { t with range_upper := some v }
  else if key = "time_limit".data then { t with time_limit := some v }
  else t

/-- Embedding of one iteration of the `for i in lines` loop of `read_cfg`
(MAT.py, lines 632–642): `rstrip` the line, split it on `;`, take
`words[0]` and `words[1]` (a missing `words[1]` raises `IndexError`), and
`int()`-coerce the value unless the key is `operator` (`ValueError` on
failure).  `none` models a raised exception, which sends `read_cfg` to the
defaults path. -/
def apply_words (t : CfgAcc) : List (List Char) → Option CfgAcc
  | w0 :: w1 :: _ =>
    if w0 = "operator".data then some { t with operator := some w1 }
    else (parseIntChars w1).map (fun v => t.store w0 v)
  | _ => none

def apply_line (t : CfgAcc) (rawLine : List Char) : Option CfgAcc :=
  apply_words t (splitOnChar ';' (rstripChars rawLine))

/-- The hard-coded `defaults` dict (MAT.py, lines 31–37). -/
def defaultSettings : Settings := ⟨2, 0, 20, "+", 120⟩

/-- Embedding of `read_cfg()` (MAT.py, lines 620–668) applied to a file
content.  Any `IndexError`/`ValueError` while processing, and any missing
required key, falls back to the `defaults` dict (the program also shows a
dialog and rewrites the file; only the returned settings are modelled).
The file-missing (`OSError`) path is outside this embedding. -/
def read_cfg (content : List Char) : Settings :=
  let lines := splitOnChar '\n' content
  match lines.foldl (fun acc line => acc.bind (fun t => apply_line t line))
      (some CfgAcc.empty) with
  | none => defaultSettings
  | some t =>
    match t.numbercount, t.range_lower, t.range_upper, t.operator,
        t.time_limit with
    | some nc, some rl, some ru, some op, some tl => ⟨nc, rl, ru, ⟨op⟩, tl⟩
    | _, _, _, _, _ => defaultSettings

/-! ## Helper lemmas about the calculation engine -/

lemma foldl_sub_eq (x : Int) (xs : List Int) :
    xs.foldl (fun b i => b - i) x = x - xs.sum := by
  induction xs generalizing x with
  | nil => simp
  | cons a l ih => simp only [List.foldl_cons, ih, List.sum_cons]; ring

lemma foldl_mul_eq (x : Int) (xs : List Int) :
    xs.foldl (fun b i => b * i) x = x * xs.prod := by
  induction xs generalizing x with
  | nil => simp
  | cons a l ih => simp only [List.foldl_cons, ih, List.prod_cons]; ring

lemma get_answer_add (l : List Int) : get_answer l "+" = ⟨false, l.sum⟩ := rfl

lemma get_answer_sub (x : Int) (xs : List Int) :
    get_answer (x :: xs) "-" = ⟨false, xs.foldl (fun b i => b - i) x⟩ := rfl

lemma get_answer_mul (x : Int) (xs : List Int) :
    get_answer (x :: xs) "·" = ⟨false, xs.foldl (fun b i => b * i) x⟩ := rfl

lemma get_answer_mul_prod (x : Int) (xs : List Int) :
    (get_answer (x :: xs) "·").value = (x :: xs).prod := by
  rw [get_answer_mul]
  simp only [foldl_mul_eq, List.prod_cons]

/-! ## C1 -/

/-- C1, counterexample.  The claim asserts that for Multiply the result
depends on operand order; but the left fold of multiplication is the
product of the operands, so reordering never changes it.  Concretely, the
two orderings of the non-identical operands 2 and 3 (the only two orderings
of that operand list) evaluate to the same answer under `·`. -/
theorem c1_counterexample :
    (get_answer [2, 3] "·").value = (get_answer [3, 2] "·").value ∧
    (2 : Int) ≠ 3 := by
  decide

/-- C1, amended: for every non-empty operand list, `get_answer` returns the
sum for Add, the left-fold difference (equivalently, the first operand
minus the sum of the rest) for Subtract, and the left-fold product
(equivalently, the product of all operands) for Multiply; hence the result
depends on operand order for Subtract, while for Multiply it is invariant
under any permutation of the operands. -/
theorem c1_amended :
    (∀ (x : Int) (xs : List Int),
        (get_answer (x :: xs) "+").value = (x :: xs).sum
      ∧ (get_answer (x :: xs) "-").value = xs.foldl (fun b i => b - i) x
      ∧ (get_answer (x :: xs) "-").value = x - xs.sum
      ∧ (get_answer (x :: xs) "·").value = xs.foldl (fun b i => b * i) x
      ∧ (get_answer (x :: xs) "·").value = (x :: xs).prod)
    ∧ (∀ (l l' : List Int), l.Perm l' →
        (get_answer l "·").value = (get_answer l' "·").value)
    ∧ (get_answer [1, 2] "-").value ≠ (get_answer [2, 1] "-").value := by
  refine ⟨?_, ?_, by decide⟩
  · intro x xs
    refine ⟨rfl, rfl, ?_, rfl, get_answer_mul_prod x xs⟩
    rw [get_answer_sub]
    simp only [foldl_sub_eq]
  · intro l l' h
    cases l with
    | nil =>
      have hl' : l' = [] := h.symm.eq_nil
      subst hl'
      rfl
    | cons x xs =>
      cases l' with
      | nil => exact absurd h.eq_nil (by simp)
      | cons y ys =>
        rw [get_answer_mul_prod, get_answer_mul_prod]
        exact h.prod_eq

/-- Witness for C1 (amended): the theorem applied at concrete inputs. -/
theorem c1_amended_witness :
    (get_answer [5, 2] "+").value = ([5, 2] : List Int).sum ∧
    (get_answer [5, 2] "·").value = (get_answer [2, 5] "·").value ∧
    (get_answer [1, 2] "-").value ≠ (get_answer [2, 1] "-").value :=
  ⟨(c1_amended.1 5 [2]).1,
   c1_amended.2.1 [5, 2] [2, 5] (by decide),
   c1_amended.2.2⟩

/-! ## C6 -/

/-- C6: for every operand list and every operator value outside the
enumerated set, `get_answer` raises the "Bug report time" `showerror`
dialog — so nothing happens silently — and the 0 it then hands back is
returned loudly, never as a silent default. -/
theorem c6_unknown_operator (numbers : List Int) (op : String)
    (h : op ∉ OPERATORS) :
    (get_answer numbers op).errorDialog = true ∧
    (get_answer numbers op).value = 0 := by
  simp only [OPERATORS, List.mem_cons, List.not_mem_nil, or_false,
    not_or] at h
  obtain ⟨h1, h2, h3⟩ := h
  simp [get_answer, h1, h2, h3]

/-- Witness for C6: the theorem applied at the unknown operator `/`. -/
theorem c6_witness :
    (get_answer [1, 2] "/").errorDialog = true ∧
    (get_answer [1, 2] "/").value = 0 :=
  c6_unknown_operator [1, 2] "/" (by decide)

/-! ## Helper lemmas about the validator -/

lemma ite_singleton_eq_nil {c : Prop} [Decidable c] (m : String) :
    ((if c then [m] else []) = []) ↔ ¬c := by
  split_ifs with h <;> simp [h]

lemma mem_ite_singleton {c : Prop} [Decidable c] (m x : String) :
    (x ∈ (if c then [m] else [])) ↔ (c ∧ x = m) := by
  split_ifs with h <;> simp [h]

/-- `settings_errors` on a record whose numeric fields all coerce. -/
lemma settings_errors_parsed (s : RawSettings) (nc rl ru tl : Int)
    (h1 : pyParseInt s.numbercount = some nc)
    (h2 : pyParseInt s.range_lower = some rl)
    (h3 : pyParseInt s.range_upper = some ru)
    (h4 : pyParseInt s.time_limit = some tl) :
    settings_errors s =
      ((if ¬(1 < nc ∧ nc ≤ MAX_NUMBERS) then [numErrMsg] else []) ++
       (if ¬(0 ≤ rl ∧ rl ≤ RANGE_LIMIT) ∨ ¬(0 ≤ ru ∧ ru ≤ RANGE_LIMIT) then
         [rangeErrMsg] else []) ++
       (if rl ≥ ru then [orderErrMsg] else []) ++
       (if s.operator ∉ OPERATORS then [opErrMsg] else []) ++
       (if ¬(-1 < tl ∧ tl < MAX_TIME_LIMIT) then [timeErrMsg] else []),
       some ⟨nc, rl, ru, s.operator, tl⟩) := by
  unfold settings_errors
  rw [h1, h2, h3, h4]

/-! ## C2 -/

/-- C2: when every numeric field coerces, the validator returns no errors
iff all five rules hold; each failing rule contributes exactly its own
message to the accumulated list; and a failed integer coercion in any
numeric field aborts immediately with the single generic message. -/
theorem c2_validator :
    (∀ (s : RawSettings) (nc rl ru tl : Int),
      pyParseInt s.numbercount = some nc →
      pyParseInt s.range_lower = some rl →
      pyParseInt s.range_upper = some ru →
      pyParseInt s.time_limit = some tl →
        (((settings_errors s).1 = [] ↔
            (1 < nc ∧ nc ≤ MAX_NUMBERS) ∧
            (0 ≤ rl ∧ rl ≤ RANGE_LIMIT) ∧ (0 ≤ ru ∧ ru ≤ RANGE_LIMIT) ∧
            rl < ru ∧ s.operator ∈ OPERATORS ∧
            (0 ≤ tl ∧ tl < MAX_TIME_LIMIT))
        ∧ (numErrMsg ∈ (settings_errors s).1 ↔ ¬(1 < nc ∧ nc ≤ MAX_NUMBERS))
        ∧ (rangeErrMsg ∈ (settings_errors s).1 ↔
            ¬((0 ≤ rl ∧ rl ≤ RANGE_LIMIT) ∧ (0 ≤ ru ∧ ru ≤ RANGE_LIMIT)))
        ∧ (orderErrMsg ∈ (settings_errors s).1 ↔ ¬(rl < ru))
        ∧ (opErrMsg ∈ (settings_errors s).1 ↔ s.operator ∉ OPERATORS)
        ∧ (timeErrMsg ∈ (settings_errors s).1 ↔
            ¬(0 ≤ tl ∧ tl < MAX_TIME_LIMIT))))
    ∧ (∀ s : RawSettings,
        pyParseInt s.numbercount = none ∨ pyParseInt s.range_lower = none ∨
        pyParseInt s.range_upper = none ∨ pyParseInt s.time_limit = none →
        (settings_errors s).1 = [intErrMsg]) := by
  have dnr : numErrMsg ≠ rangeErrMsg := by decide
  have dno : numErrMsg ≠ orderErrMsg := by decide
  have dnp : numErrMsg ≠ opErrMsg := by decide
  have dnt : numErrMsg ≠ timeErrMsg := by decide
  have dro : rangeErrMsg ≠ orderErrMsg := by decide
  have drp : rangeErrMsg ≠ opErrMsg := by decide
  have drt : rangeErrMsg ≠ timeErrMsg := by decide
  have dop : orderErrMsg ≠ opErrMsg := by decide
  have dot : orderErrMsg ≠ timeErrMsg := by decide
  have dpt : opErrMsg ≠ timeErrMsg := by decide
  constructor
  · intro s nc rl ru tl h1 h2 h3 h4
    rw [settings_errors_parsed s nc rl ru tl h1 h2 h3 h4]
    have htl : ((-1 : Int) < tl) ↔ 0 ≤ tl := by omega
    have hge : (rl ≥ ru) ↔ ¬(rl < ru) := by omega
    simp only [htl, hge, List.mem_append, mem_ite_singleton,
      List.append_eq_nil, ite_singleton_eq_nil, dnr, dno, dnp, dnt, dro,
      drp, drt, dop, dot, dpt, dnr.symm, dno.symm, dnp.symm, dnt.symm,
      dro.symm, drp.symm, drt.symm, dop.symm, dot.symm, dpt.symm,
      eq_self_iff_true, and_true, and_false, or_false, false_or, true_and,
      false_and, not_not, not_or]
    tauto
  · intro s h
    cases hn : pyParseInt s.numbercount with
    | none => simp [settings_errors, hn]
    | some nc =>
      cases hl : pyParseInt s.range_lower with
      | none => simp [settings_errors, hn, hl]
      | some rl =>
        cases hu : pyParseInt s.range_upper with
        | none => simp [settings_errors, hn, hl, hu]
        | some ru =>
          cases ht : pyParseInt s.time_limit with
          | none => simp [settings_errors, hn, hl, hu, ht]
          | some tl => simp_all

/-- Witness for C2: the theorem applied at a concrete fully-valid record
and at a concrete record with a non-integer `numbercount`. -/
theorem c2_witness :
    (settings_errors ⟨"2", "0", "20", "+", "120"⟩).1 = [] ∧
    (settings_errors ⟨"abc", "0", "20", "+", "120"⟩).1 = [intErrMsg] :=
  ⟨((c2_validator.1 ⟨"2", "0", "20", "+", "120"⟩ 2 0 20 120
      (by decide) (by decide) (by decide) (by decide)).1).mpr (by decide),
   c2_validator.2 ⟨"abc", "0", "20", "+", "120"⟩ (Or.inl (by decide))⟩

/-! ## C3 -/

lemma pyParseInt_empty : pyParseInt "" = none := by decide

/-- A concrete Running state used by the concrete theorems: operator `+`,
current operands `[3, 4]`, score 1 of 2. -/
def stRun : GameState :=
  { answersCorrect := 1
    answersAll := 2
    stoptimer := false
    timeLeft := 0
    resultsCur := "1 / 2"
    resultsPrev := ""
    settings := ⟨2, 0, 20, "+", 0⟩
    numbersInUse := [3, 4]
    uinput := ""
    running := true
    pending := none }

/-- C3, counterexample.  The claim says the submitted text is trimmed and a
trimmed-empty string is a skip (`totalCount += 1`, no error).  But
`answer_process` compares the *untrimmed* text against `""`: on the
whitespace-only input `" "` (which strips to empty), `int(" ")` raises
`ValueError`, `" " != ""`, and the code takes the bad-input path — the
dialog is raised and neither counter changes. -/
theorem c3_counterexample :
    stripChars " ".data = [] ∧
    (answer_process stRun " " [7, 8]).2 = true ∧
    (answer_process stRun " " [7, 8]).1.answersAll = stRun.answersAll ∧
    (answer_process stRun " " [7, 8]).1.answersCorrect =
      stRun.answersCorrect := by
  decide

/-- C3, amended: the submitted text is *not* trimmed before the emptiness
test; only the exactly-empty string is a skip (`totalCount` increments,
`correctCount` unchanged, no error, new equation).  Text that parses as an
integer (Python `int` itself tolerates surrounding whitespace) equal to the
current answer increments both counters and advances; parsing to a
different integer increments only `totalCount` and advances; any other
non-empty text — including whitespace-only text — changes neither counter,
clears the input, raises the notifier error, and keeps the current
equation. -/
theorem c3_amended :
    (∀ (st : GameState) (fresh : List Int),
        (answer_process st "" fresh).1.answersAll = st.answersAll + 1
      ∧ (answer_process st "" fresh).1.answersCorrect = st.answersCorrect
      ∧ (answer_process st "" fresh).2 = false
      ∧ (answer_process st "" fresh).1.numbersInUse = fresh)
    ∧ (∀ (st : GameState) (u : String) (v : Int) (fresh : List Int),
        pyParseInt u = some v →
        v = (get_answer st.numbersInUse st.settings.operator).value →
          (answer_process st u fresh).1.answersCorrect = st.answersCorrect + 1
        ∧ (answer_process st u fresh).1.answersAll = st.answersAll + 1
        ∧ (answer_process st u fresh).2 = false
        ∧ (answer_process st u fresh).1.numbersInUse = fresh)
    ∧ (∀ (st : GameState) (u : String) (v : Int) (fresh : List Int),
        pyParseInt u = some v →
        v ≠ (get_answer st.numbersInUse st.settings.operator).value →
          (answer_process st u fresh).1.answersCorrect = st.answersCorrect
        ∧ (answer_process st u fresh).1.answersAll = st.answersAll + 1
        ∧ (answer_process st u fresh).2 = false
        ∧ (answer_process st u fresh).1.numbersInUse = fresh)
    ∧ (∀ (st : GameState) (u : String) (fresh : List Int),
        pyParseInt u = none → u ≠ "" →
          (answer_process st u fresh).1 = { st with uinput := "" }
        ∧ (answer_process st u fresh).2 = true) := by
  refine ⟨?_, ?_, ?_, ?_⟩
  · intro st fresh
    simp [answer_process, pyParseInt_empty, advance_turn]
  · intro st u v fresh hp hv
    simp [answer_process, hp, hv, advance_turn]
  · intro st u v fresh hp hv
    simp [answer_process, hp, hv, advance_turn]
  · intro st u fresh hp hu
    simp [answer_process, hp, hu]

/-- Witness for C3 (amended): the theorem applied at concrete inputs
(skip, correct answer `7` for `3 + 4`, malformed answer `abc`). -/
theorem c3_amended_witness :
    (answer_process stRun "" [7, 8]).1.answersAll = stRun.answersAll + 1 ∧
    (answer_process stRun "7" [7, 8]).1.answersCorrect =
      stRun.answersCorrect + 1 ∧
    (answer_process stRun "abc" [7, 8]).2 = true :=
  ⟨(c3_amended.1 stRun [7, 8]).1,
   (c3_amended.2.1 stRun "7" 7 [7, 8] (by decide) (by decide)).1,
   (c3_amended.2.2.2 stRun "abc" [7, 8] (by decide) (by decide)).2⟩

/-! ## Helper lemmas about the countdown -/

lemma countdown_pos (st : GameState) (c : Int) (h : st.stoptimer = false)
    (hc : 0 < c) :
    countdown c st = { st with timeLeft := c - 1, pending := some (c - 1) } := by
  simp [countdown, h, hc]

lemma tick_of_pending (st : GameState) (c : Int) (hp : st.pending = some c) :
    tick st = countdown c { st with pending := none } := by
  simp [tick, hp]

lemma tick_shape (st : GameState) (c : Int) (h : st.stoptimer = false)
    (hp : st.pending = some c) (hc : 0 < c) :
    tick st = { st with timeLeft := c - 1, pending := some (c - 1) } := by
  rw [tick_of_pending st c hp,
    countdown_pos { st with pending := none } c h hc]

lemma tick_shape_zero (st : GameState) (h : st.stoptimer = false)
    (hp : st.pending = some 0) :
    tick st =
      { st with stoptimer := true, timeLeft := 0, uinput := "",
                running := false, answersCorrect := 0, answersAll := 0,
                pending := none } := by
  rw [tick_of_pending st 0 hp]
  simp [countdown, stop_game, h]

/-- Ticks walk the pending count down one display unit at a time. -/
lemma tickIter_shape (k : Nat) :
    ∀ (st : GameState) (c : Int), st.stoptimer = false → st.timeLeft = c →
    st.pending = some c → (k : Int) ≤ c →
    tick^[k] st = { st with timeLeft := c - k, pending := some (c - k) } := by
  induction k with
  | zero =>
    intro st c h ht hp hk
    subst ht
    simp only [Function.iterate_zero, id_eq, Nat.cast_zero, sub_zero]
    rw [← hp]
  | succ k ih =>
    intro st c h ht hp hk
    have hc : 0 < c := by
      have hk1 : ((k : Int)) + 1 ≤ c := by push_cast at hk; omega
      omega
    rw [Function.iterate_succ_apply, tick_shape st c h hp hc,
      ih { st with timeLeft := c - 1, pending := some (c - 1) } (c - 1) h
        rfl rfl (by push_cast at hk ⊢; omega)]
    have harith : c - 1 - (k : Int) = c - ((k + 1 : Nat) : Int) := by
      push_cast
      ring
    rw [harith]

/-- The canonical in-countdown state: displayed time equals the scheduled
count. -/
def shapeState (st : GameState) (c : Int) : GameState :=
  { st with timeLeft := c, pending := some c }

/-! ## C4 -/

/-- C4: starting the countdown with `timeLimit = n > 0` from a Running
state (as `start_game` does, invoking `countdown(time_limit)` directly),
every scheduled tick before the `n`-th decrements the displayed time by
exactly one (it shows `n - 1 - k` after `k` ticks) and leaves the session
Running; the `n`-th tick — the first one whose count has been decremented
all the way to zero — performs the Running → Stopped transition, after
which the displayed time is 0.  In particular for `n = 1`, one tick stops
the session with the display at 0. -/
theorem c4_countdown (st : GameState) (n : Nat) (h0 : 0 < n)
    (hs : st.stoptimer = false) (hr : st.running = true) :
    (∀ k : Nat, k < n →
        (tick^[k] (countdown (n : Int) st)).running = true
      ∧ (tick^[k] (countdown (n : Int) st)).timeLeft = (n : Int) - 1 - k)
    ∧ (tick^[n] (countdown (n : Int) st)).running = false
    ∧ (tick^[n] (countdown (n : Int) st)).stoptimer = true
    ∧ (tick^[n] (countdown (n : Int) st)).timeLeft = 0 := by
  obtain ⟨m, rfl⟩ : ∃ m, n = m + 1 :=
    ⟨n - 1, (Nat.succ_pred_eq_of_pos h0).symm⟩
  have hcast : ((m + 1 : Nat) : Int) - 1 = (m : Int) := by push_cast; ring
  have hstart : countdown ((m + 1 : Nat) : Int) st = shapeState st m := by
    unfold shapeState
    rw [countdown_pos st _ hs (by push_cast; omega), hcast]
  constructor
  · intro k hk
    have hk' : (k : Int) ≤ (m : Int) := by
      have hkm : k ≤ m := by omega
      exact_mod_cast hkm
    rw [hstart, tickIter_shape k (shapeState st m) m hs rfl rfl hk']
    refine ⟨hr, ?_⟩
    show (m : Int) - k = ((m + 1 : Nat) : Int) - 1 - k
    push_cast
    ring
  · have hmid : tick^[m] (countdown ((m + 1 : Nat) : Int) st) =
        shapeState st 0 := by
      rw [hstart, tickIter_shape m (shapeState st m) m hs rfl rfl le_rfl]
      unfold shapeState
      simp
    rw [Function.iterate_succ_apply', hmid, tick_shape_zero (shapeState st 0) hs rfl]
    exact ⟨rfl, rfl, rfl⟩

/-- Witness for C4: the theorem applied with `timeLimit = 1` at the
concrete Running state `stRun`; one tick stops the session and the
displayed time is 0. -/
theorem c4_witness :
    (tick^[1] (countdown ((1 : Nat) : Int) stRun)).running = false ∧
    (tick^[1] (countdown ((1 : Nat) : Int) stRun)).timeLeft = 0 :=
  ⟨(c4_countdown stRun 1 (by decide) rfl rfl).2.1,
   (c4_countdown stRun 1 (by decide) rfl rfl).2.2.2⟩

/-! ## C5 -/

/-- C5: once `stop_game` has set the stop flag, the next firing of an
already-scheduled countdown tick is a no-op: the flag is tested at the top
of `countdown`, so the tick consumes its scheduled callback and changes
nothing else — no decrement of the displayed time, no rescheduling, and no
second Running → Stopped transition.  A manual stop therefore always wins
over an in-flight tick scheduled before it. -/
theorem c5_stop_wins (st : GameState) (c : Int) (h : st.stoptimer = true)
    (hp : st.pending = some c) :
    tick st = { st with pending := none } ∧
    (tick st).timeLeft = st.timeLeft ∧
    (tick st).running = st.running ∧
    (tick st).answersCorrect = st.answersCorrect ∧
    (tick st).answersAll = st.answersAll ∧
    (tick st).pending = none := by
  have hmain : tick st = { st with pending := none } := by
    rw [tick_of_pending st c hp]
    simp [countdown, h]
  rw [hmain]
  exact ⟨rfl, rfl, rfl, rfl, rfl, rfl⟩

/-- A concrete manually-stopped state with a tick still scheduled. -/
def stStopped : GameState :=
  { stRun with stoptimer := true, running := false, pending := some 5 }

/-- Witness for C5: the theorem applied at the concrete stopped state with
a pending tick. -/
theorem c5_witness :
    tick stStopped = { stStopped with pending := none } ∧
    (tick stStopped).timeLeft = stStopped.timeLeft :=
  ⟨(c5_stop_wins stStopped 5 rfl rfl).1,
   (c5_stop_wins stStopped 5 rfl rfl).2.1⟩

/-! ## Helper lemmas about `start_game` -/

/-- A successful validation implies the five validation rules for the
coerced record. -/
lemma settings_errors_nil_bounds (raw : RawSettings) (ps : Settings)
    (h : settings_errors raw = ([], some ps)) :
    1 < ps.numbercount ∧ ps.numbercount ≤ MAX_NUMBERS ∧
    0 ≤ ps.range_lower ∧ ps.range_lower < ps.range_upper ∧
    ps.operator ∈ OPERATORS ∧ 0 ≤ ps.time_limit ∧
    ps.time_limit < MAX_TIME_LIMIT := by
  cases hn : pyParseInt raw.numbercount with
  | none => simp [settings_errors, hn] at h
  | some nc =>
  cases hl : pyParseInt raw.range_lower with
  | none => simp [settings_errors, hn, hl] at h
  | some rl =>
  cases hu : pyParseInt raw.range_upper with
  | none => simp [settings_errors, hn, hl, hu] at h
  | some ru =>
  cases ht : pyParseInt raw.time_limit with
  | none => simp [settings_errors, hn, hl, hu, ht] at h
  | some tl =>
    rw [settings_errors_parsed raw nc rl ru tl hn hl hu ht] at h
    obtain ⟨herr, hps⟩ := Prod.mk.injEq _ _ _ _ ▸ h
    injection hps with hps
    subst hps
    simp only [List.append_eq_nil, ite_singleton_eq_nil, not_not, not_or,
      ge_iff_le, not_le] at herr
    dsimp only
    refine ⟨by tauto, by tauto, by tauto, ?_, by tauto, ?_, by tauto⟩
    · have hlt : ¬(rl ≥ ru) ∨ rl < ru := by tauto
      omega
    · have hgt : (-1 : Int) < tl := by tauto
      omega

/-- `start_game` on successfully validated raw fields. -/
lemma start_game_success (st : GameState) (raw : RawSettings)
    (ps : Settings) (fresh : List Int)
    (h : settings_errors raw = ([], some ps)) :
    start_game st raw fresh =
      (if ps.time_limit ≠ 0 then
        countdown ps.time_limit
          (start_game_setup { st with settings := ps } fresh)
      else start_game_setup { st with settings := ps } fresh) := by
  unfold start_game
  rw [h]

/-- `start_game` on raw fields that fail validation is a no-op. -/
lemma start_game_failure (st : GameState) (raw : RawSettings)
    (fresh : List Int)
    (h : (settings_errors raw).1 ≠ [] ∨ (settings_errors raw).2 = none) :
    start_game st raw fresh = st := by
  rcases hse : settings_errors raw with ⟨errs, res⟩
  rw [hse] at h
  unfold start_game
  rw [hse]
  cases errs with
  | cons e t => rfl
  | nil =>
    cases res with
    | none => rfl
    | some ps => simp at h

/-! ## C8 -/

/-- The raw field record corresponding to `stRun.settings`. -/
def rawOk : RawSettings := ⟨"2", "0", "20", "+", "0"⟩

/-- C8, counterexample.  `start()` while already Running with unchanged raw
field values is *not* a no-op: at the concrete Running state `stRun`
(current score display `"1 / 2"`), re-running `start_game` with the very
raw fields that validate to `stRun.settings` snapshots the current score
display into the previous display, clears the current display, and
replaces the current equation's operands — the SessionState changes. -/
theorem c8_counterexample :
    stRun.running = true ∧
    settings_errors rawOk = ([], some stRun.settings) ∧
    stRun.resultsCur = "1 / 2" ∧
    (start_game stRun rawOk [7, 8]).resultsCur = "" ∧
    (start_game stRun rawOk [7, 8]).resultsPrev = "1 / 2" ∧
    (start_game stRun rawOk [7, 8]).numbersInUse = [7, 8] := by
  decide

/-- C8, amended.  `stop()` is idempotent (`stop ∘ stop = stop`), and on any
Stopped state produced by a previous `stop()` (stop flag set, widgets in
stopped mode, display time 0, entry clear, counters flushed) it is a
complete no-op.  (In the program these calls are normally unreachable: the
stop button is disabled while Stopped and the start button while Running.)
`start()` while already Running with unchanged, valid raw field values is
*not* a no-op: it preserves the settings and both answer counters and
leaves the session Running, but it snapshots a non-empty current score
display into the previous display and clears the current one (and draws a
fresh equation). -/
theorem c8_amended :
    (∀ st : GameState, stop_game (stop_game st) = stop_game st)
    ∧ (∀ st : GameState, st.stoptimer = true → st.running = false →
        st.timeLeft = 0 → st.uinput = "" → st.answersCorrect = 0 →
        st.answersAll = 0 → stop_game st = st)
    ∧ (∀ (st : GameState) (raw : RawSettings) (fresh : List Int),
        settings_errors raw = ([], some st.settings) →
          (start_game st raw fresh).settings = st.settings
        ∧ (start_game st raw fresh).answersCorrect = st.answersCorrect
        ∧ (start_game st raw fresh).answersAll = st.answersAll
        ∧ (start_game st raw fresh).running = true
        ∧ (st.resultsCur ≠ "" →
            (start_game st raw fresh).resultsPrev = st.resultsCur
          ∧ (start_game st raw fresh).resultsCur = "")) := by
  refine ⟨fun st => rfl, ?_, ?_⟩
  · intro st h1 h2 h3 h4 h5 h6
    obtain ⟨a1, a2, a3, a4, a5, a6, a7, a8, a9, a10, a11⟩ := st
    simp_all [stop_game]
  · intro st raw fresh h
    by_cases htl : st.settings.time_limit = 0
    · rw [start_game_success st raw st.settings fresh h,
        if_neg (by simp [htl])]
      refine ⟨rfl, rfl, rfl, rfl, fun hne => ?_⟩
      constructor <;> simp [start_game_setup, hne]
    · have hb := settings_errors_nil_bounds raw st.settings h
      have hpos : 0 < st.settings.time_limit := by
        obtain ⟨_, _, _, _, _, htl0, _⟩ := hb
        omega
      rw [start_game_success st raw st.settings fresh h, if_pos htl,
        countdown_pos (start_game_setup { st with settings := st.settings }
          fresh) _ rfl hpos]
      refine ⟨rfl, rfl, rfl, rfl, fun hne => ?_⟩
      constructor <;> simp [start_game_setup, hne]

/-- Witness for C8 (amended): `stop` applied to an already-stopped state is
the identity, and re-starting the concrete Running state keeps it
Running. -/
theorem c8_amended_witness :
    stop_game (stop_game stRun) = stop_game stRun ∧
    (start_game stRun rawOk [7, 8]).running = true :=
  ⟨c8_amended.2.1 (stop_game stRun) rfl rfl rfl rfl rfl rfl,
   (c8_amended.2.2 stRun rawOk [7, 8] (by decide)).2.2.2.1⟩

/-! ## C9 -/

/-- C9: `stop_game` flushes both counters to 0 but leaves both score
displays untouched, so the just-ended score string stays visible as the
current display; only `start_game_setup` (run by the next `start()`)
snapshots the current display into the previous one and clears it — and it
does so only when the current display is non-empty, i.e. only when the
ended session had produced at least one answer (`advance_turn` is the sole
writer of a non-empty current display). -/
theorem c9_score_display :
    (∀ st : GameState,
        (stop_game st).resultsCur = st.resultsCur
      ∧ (stop_game st).resultsPrev = st.resultsPrev
      ∧ (stop_game st).answersCorrect = 0
      ∧ (stop_game st).answersAll = 0)
    ∧ (∀ (st : GameState) (fresh : List Int), st.resultsCur ≠ "" →
        (start_game_setup st fresh).resultsPrev = st.resultsCur
      ∧ (start_game_setup st fresh).resultsCur = "")
    ∧ (∀ (st : GameState) (fresh : List Int), st.resultsCur = "" →
        (start_game_setup st fresh).resultsPrev = st.resultsPrev
      ∧ (start_game_setup st fresh).resultsCur = st.resultsCur) := by
  refine ⟨fun st => ⟨rfl, rfl, rfl, rfl⟩, ?_, ?_⟩
  · intro st fresh hne
    constructor <;> simp [start_game_setup, hne]
  · intro st fresh he
    constructor <;> simp [start_game_setup, he]

/-- Witness for C9: the theorem applied at the concrete Running state
`stRun` (current display `"1 / 2"`). -/
theorem c9_witness :
    (stop_game stRun).resultsCur = stRun.resultsCur ∧
    (start_game_setup stRun [7, 8]).resultsPrev = stRun.resultsCur :=
  ⟨(c9_score_display.1 stRun).1,
   (c9_score_display.2.1 stRun [7, 8] (by decide)).1⟩

/-! ## C10 -/

/-- One externally triggered operation of the session controller: a press
of the start button, a submitted answer, a firing of the scheduled
countdown callback, or a press of the stop button (which is also what a
timeout performs). -/
inductive Step : GameState → GameState → Prop where
  | start (st : GameState) (raw : RawSettings) (fresh : List Int) :
      Step st (start_game st raw fresh)
  | answer (st : GameState) (u : String) (fresh : List Int) :
      Step st (answer_process st u fresh).1
  | timer (st : GameState) : Step st (tick st)
  | stop (st : GameState) : Step st (stop_game st)

/-- States reachable from program start (`__init__` zeroes both counters)
by any sequence of operations. -/
inductive Reachable : GameState → Prop where
  | init (st : GameState) (h1 : st.answersCorrect = 0)
      (h2 : st.answersAll = 0) : Reachable st
  | step (s s' : GameState) (h : Reachable s) (hs : Step s s') : Reachable s'

lemma advance_turn_counters (st : GameState) (correct : Bool)
    (fresh : List Int) (hle : st.answersCorrect ≤ st.answersAll) :
    (advance_turn st correct fresh).answersCorrect ≤
      (advance_turn st correct fresh).answersAll := by
  unfold advance_turn
  cases correct <;> simp <;> omega

lemma answer_process_counters (st : GameState) (u : String)
    (fresh : List Int) (hle : st.answersCorrect ≤ st.answersAll) :
    (answer_process st u fresh).1.answersCorrect ≤
      (answer_process st u fresh).1.answersAll := by
  unfold answer_process
  cases hp : pyParseInt u with
  | some v =>
    simp only [hp]
    split_ifs <;> exact advance_turn_counters st _ fresh hle
  | none =>
    simp only [hp]
    split_ifs
    · exact advance_turn_counters st false fresh hle
    · exact hle

lemma countdown_counters (c : Int) (st : GameState)
    (hle : st.answersCorrect ≤ st.answersAll) :
    (countdown c st).answersCorrect ≤ (countdown c st).answersAll := by
  unfold countdown stop_game
  split_ifs <;> simp [hle]

lemma tick_counters (st : GameState)
    (hle : st.answersCorrect ≤ st.answersAll) :
    (tick st).answersCorrect ≤ (tick st).answersAll := by
  cases hp : st.pending with
  | none => simpa [tick, hp] using hle
  | some c =>
    rw [tick_of_pending st c hp]
    exact countdown_counters c _ hle

lemma start_game_counters (st : GameState) (raw : RawSettings)
    (fresh : List Int) (hle : st.answersCorrect ≤ st.answersAll) :
    (start_game st raw fresh).answersCorrect ≤
      (start_game st raw fresh).answersAll := by
  rcases hse : settings_errors raw with ⟨errs, res⟩
  cases errs with
  | cons e t =>
    rw [start_game_failure st raw fresh (by rw [hse]; simp)]
    exact hle
  | nil =>
    cases res with
    | none =>
      rw [start_game_failure st raw fresh (by rw [hse]; simp)]
      exact hle
    | some ps =>
      rw [start_game_success st raw ps fresh hse]
      split_ifs
      · exact countdown_counters _ _ hle
      · exact hle

/-- C10: the score invariant `0 ≤ correctCount ≤ totalCount` holds in
every reachable state: it holds at program start (both counters are
initialised to 0) and every operation preserves it — `advance_turn`
increments `correctCount` only together with `totalCount`, and the stop
paths reset both to 0 together. -/
theorem c10_score_invariant (s : GameState) (h : Reachable s) :
    0 ≤ s.answersCorrect ∧ s.answersCorrect ≤ s.answersAll := by
  induction h with
  | init st h1 h2 => simp [h1, h2]
  | step s s' hr hs ih =>
    refine ⟨Nat.zero_le _, ?_⟩
    cases hs with
    | start raw fresh => exact start_game_counters s raw fresh ih.2
    | answer u fresh => exact answer_process_counters s u fresh ih.2
    | timer => exact tick_counters s ih.2
    | stop => exact Nat.le_refl 0

/-- The launch state of the program (counters zeroed in `__init__`). -/
def stInit : GameState :=
  { answersCorrect := 0
    answersAll := 0
    stoptimer := false
    timeLeft := 0
    resultsCur := ""
    resultsPrev := ""
    settings := ⟨2, 0, 20, "+", 120⟩
    numbersInUse := []
    uinput := ""
    running := false
    pending := none }

/-- Witness for C10: the theorem applied at the concrete launch state. -/
theorem c10_witness :
    0 ≤ stInit.answersCorrect ∧ stInit.answersCorrect ≤ stInit.answersAll :=
  c10_score_invariant stInit (Reachable.init stInit rfl rfl)

/-! ## Helper lemmas about decimal printing and parsing -/

lemma digitChar10_props (d : Nat) (h : d < 10) :
    valOfChar (digitChar10 d) = d ∧ (digitChar10 d).isDigit = true ∧
    isPySpace (digitChar10 d) = false ∧ digitChar10 d ≠ ';' ∧
    digitChar10 d ≠ '\n' ∧ digitChar10 d ≠ '-' ∧ digitChar10 d ≠ '+' := by
  interval_cases d <;> exact ⟨by decide, by decide, by decide, by decide,
    by decide, by decide, by decide⟩

lemma natToChars_props (n : Nat) :
    ∀ c ∈ natToChars n, c.isDigit = true ∧ isPySpace c = false ∧
      c ≠ ';' ∧ c ≠ '\n' ∧ c ≠ '-' ∧ c ≠ '+' := by
  intro c hc
  unfold natToChars at hc
  split_ifs at hc with h
  · simp only [List.mem_singleton] at hc
    subst hc
    exact ⟨by decide, by decide, by decide, by decide, by decide, by decide⟩
  · simp only [List.mem_reverse, List.mem_map] at hc
    obtain ⟨d, hd, rfl⟩ := hc
    have hlt : d < 10 := Nat.digits_lt_base (by norm_num) hd
    have hp := digitChar10_props d hlt
    exact ⟨hp.2.1, hp.2.2.1, hp.2.2.2.1, hp.2.2.2.2.1, hp.2.2.2.2.2.1,
      hp.2.2.2.2.2.2⟩

lemma natToChars_ne_nil (n : Nat) : natToChars n ≠ [] := by
  unfold natToChars
  split_ifs with h
  · simp
  · simp [Nat.digits_ne_nil_iff_ne_zero, h]

lemma foldr_digits (L : List Nat) (h : ∀ d ∈ L, d < 10) :
    List.foldr (fun c a => 10 * a + valOfChar c) 0 (L.map digitChar10) =
      Nat.ofDigits 10 L := by
  induction L with
  | nil => simp
  | cons d t ih =>
    simp only [List.map_cons, List.foldr_cons, Nat.ofDigits_cons]
    rw [ih (fun x hx => h x (List.mem_cons_of_mem d hx)),
      (digitChar10_props d (h d (List.mem_cons_self d t))).1]
    ring

lemma parseDigits_natToChars (n : Nat) :
    parseDigits (natToChars n) = some n := by
  have hall : (natToChars n).all (fun c => c.isDigit) = true := by
    rw [List.all_eq_true]
    intro c hc
    exact (natToChars_props n c hc).1
  unfold parseDigits
  rw [if_pos ⟨natToChars_ne_nil n, hall⟩]
  congr 1
  by_cases h : n = 0
  · subst h
    decide
  · rw [natToChars, if_neg h, List.foldl_reverse, foldr_digits _
      (fun d hd => Nat.digits_lt_base (by norm_num) hd),
      Nat.ofDigits_digits]

lemma dropWhile_all_false (p : Char → Bool) (l : List Char)
    (h : ∀ x ∈ l, p x = false) : l.dropWhile p = l := by
  cases l with
  | nil => rfl
  | cons a t => simp [List.dropWhile_cons, h a (List.mem_cons_self a t)]

lemma stripChars_eq_self (l : List Char)
    (h : ∀ x ∈ l, isPySpace x = false) : stripChars l = l := by
  unfold stripChars
  rw [dropWhile_all_false isPySpace l h,
    dropWhile_all_false isPySpace l.reverse
      (fun x hx => h x (List.mem_reverse.mp hx)),
    List.reverse_reverse]

lemma rstripChars_eq_self (l : List Char)
    (h : ∀ x ∈ l, isPySpace x = false) : rstripChars l = l := by
  unfold rstripChars
  rw [dropWhile_all_false isPySpace l.reverse
      (fun x hx => h x (List.mem_reverse.mp hx)),
    List.reverse_reverse]

lemma parseIntChars_natToChars (n : Nat) :
    parseIntChars (natToChars n) = some (n : Int) := by
  unfold parseIntChars
  rw [stripChars_eq_self _ (fun c hc => (natToChars_props n c hc).2.1)]
  cases hcs : natToChars n with
  | nil => exact absurd hcs (natToChars_ne_nil n)
  | cons c rest =>
    have hc := natToChars_props n c (hcs ▸ List.mem_cons_self c rest)
    rw [parseIntCore, if_neg hc.2.2.2.2.1, if_neg hc.2.2.2.2.2,
      ← hcs, parseDigits_natToChars n]
    rfl

lemma pyStrInt_nonneg (v : Int) (h : 0 ≤ v) :
    pyStrInt v = natToChars v.toNat := by
  unfold pyStrInt
  rw [if_neg (by omega)]

lemma parseIntChars_pyStrInt (v : Int) (h : 0 ≤ v) :
    parseIntChars (pyStrInt v) = some v := by
  rw [pyStrInt_nonneg v h, parseIntChars_natToChars]
  rw [Int.toNat_of_nonneg h]

/-- The printed form of a valid (non-negative) value contains no
separator, newline or whitespace characters. -/
lemma pyStrInt_props (v : Int) (h : 0 ≤ v) :
    (';' ∉ pyStrInt v) ∧ ('\n' ∉ pyStrInt v) ∧
    (∀ x ∈ pyStrInt v, isPySpace x = false) := by
  rw [pyStrInt_nonneg v h]
  exact ⟨fun hm => (natToChars_props _ _ hm).2.2.1 rfl,
    fun hm => (natToChars_props _ _ hm).2.2.2.1 rfl,
    fun x hx => (natToChars_props _ _ hx).2.1⟩

/-! ## Helper lemmas about line splitting -/

lemma splitOnChar_cons (c x : Char) (xs : List Char) :
    splitOnChar c (x :: xs) =
      match splitOnChar c xs with
      | [] => [[x]]
      | y :: ys => if x = c then [] :: y :: ys else (x :: y) :: ys := rfl

lemma splitOnChar_ne_nil (c : Char) (l : List Char) :
    splitOnChar c l ≠ [] := by
  induction l with
  | nil => simp [splitOnChar]
  | cons x xs ih =>
    rw [splitOnChar_cons]
    cases h : splitOnChar c xs with
    | nil => simp
    | cons y ys =>
      dsimp only
      split_ifs <;> simp

lemma splitOnChar_not_mem (c : Char) (l : List Char) (h : c ∉ l) :
    splitOnChar c l = [l] := by
  induction l with
  | nil => rfl
  | cons x xs ih =>
    simp only [List.mem_cons, not_or] at h
    obtain ⟨h1, h2⟩ := h
    rw [splitOnChar_cons, ih h2]
    dsimp only
    rw [if_neg (fun e => h1 e.symm)]

lemma splitOnChar_append (c : Char) (l1 l2 : List Char) (h : c ∉ l1) :
    splitOnChar c (l1 ++ c :: l2) = l1 :: splitOnChar c l2 := by
  induction l1 with
  | nil =>
    simp only [List.nil_append]
    rw [splitOnChar_cons]
    cases hsp : splitOnChar c l2 with
    | nil => exact absurd hsp (splitOnChar_ne_nil c l2)
    | cons y ys =>
      dsimp only
      rw [if_pos rfl]
  | cons x xs ih =>
    simp only [List.mem_cons, not_or] at h
    obtain ⟨h1, h2⟩ := h
    simp only [List.cons_append]
    rw [splitOnChar_cons, ih h2]
    dsimp only
    rw [if_neg (fun e => h1 e.symm)]

/-! ## Helper lemmas about the config store -/

lemma not_mem_cfgLine (a : Char) (key : String) (value : List Char)
    (hk : a ∉ key.data) (hs : a ≠ ';') (hv : a ∉ value) :
    a ∉ cfgLine key value := by
  unfold cfgLine
  intro hm
  rcases List.mem_append.mp hm with h | h
  · exact hk h
  · rcases List.mem_cons.mp h with h | h
    · exact hs h
    · exact hv h

lemma apply_line_cfg (t : CfgAcc) (key : String) (value : List Char)
    (hk1 : ';' ∉ key.data) (hk2 : ∀ x ∈ key.data, isPySpace x = false)
    (hv1 : ';' ∉ value) (hv2 : ∀ x ∈ value, isPySpace x = false) :
    apply_line t (cfgLine key value) =
      (if key.data = "operator".data then
        some { t with operator := some value }
      else (parseIntChars value).map (fun v => t.store key.data v)) := by
  unfold apply_line cfgLine
  have hr : rstripChars (key.data ++ ';' :: value) =
      key.data ++ ';' :: value := by
    apply rstripChars_eq_self
    intro x hx
    rcases List.mem_append.mp hx with hx | hx
    · exact hk2 x hx
    · rcases List.mem_cons.mp hx with rfl | hx
      · decide
      · exact hv2 x hx
  rw [hr, splitOnChar_append ';' key.data value hk1,
    splitOnChar_not_mem ';' value hv1]
  rfl

lemma store_numbercount (t : CfgAcc) (v : Int) :
    CfgAcc.store t "numbercount".data v = { t with numbercount := some v } := by
  unfold CfgAcc.store
  rw [if_pos rfl]

lemma store_range_lower (t : CfgAcc) (v : Int) :
    CfgAcc.store t "range_lower".data v = { t with range_lower := some v } := by
  unfold CfgAcc.store
  rw [if_neg (by decide), if_pos rfl]

lemma store_range_upper (t : CfgAcc) (v : Int) :
    CfgAcc.store t "range_upper".data v = { t with range_upper := some v } := by
  unfold CfgAcc.store
  rw [if_neg (by decide), if_neg (by decide), if_pos rfl]

lemma store_time_limit (t : CfgAcc) (v : Int) :
    CfgAcc.store t "time_limit".data v = { t with time_limit := some v } := by
  unfold CfgAcc.store
  rw [if_neg (by decide), if_neg (by decide), if_neg (by decide), if_pos rfl]

/-! ## C7 -/

/-- C7: for every valid Settings record, writing the config file and
reading it back reproduces the record exactly: the `name;value` line
format round-trips the four integer fields (decimal printing followed by
`int()` parsing is the identity) and the operator glyph. -/
theorem c7_roundtrip (s : Settings)
    (h1 : 1 < s.numbercount) (h2 : s.numbercount ≤ MAX_NUMBERS)
    (h3 : 0 ≤ s.range_lower) (h4 : s.range_lower ≤ RANGE_LIMIT)
    (h5 : 0 ≤ s.range_upper) (h6 : s.range_upper ≤ RANGE_LIMIT)
    (h7 : s.range_lower < s.range_upper)
    (h8 : s.operator ∈ OPERATORS)
    (h9 : 0 ≤ s.time_limit) (h10 : s.time_limit < MAX_TIME_LIMIT) :
    read_cfg (write_cfg s) = s := by
  obtain ⟨nc, rl, ru, op, tl⟩ := s
  dsimp only at h1 h2 h3 h4 h5 h6 h7 h8 h9 h10
  have hnc0 : (0 : Int) ≤ nc := by omega
  have pf_nc := pyStrInt_props nc hnc0
  have pf_rl := pyStrInt_props rl h3
  have pf_ru := pyStrInt_props ru h5
  have pf_tl := pyStrInt_props tl h9
  have hop : op = "+" ∨ op = "-" ∨ op = "·" := by
    simpa [OPERATORS] using h8
  have pf_op : (';' ∉ op.data) ∧ ('\n' ∉ op.data) ∧
      (∀ x ∈ op.data, isPySpace x = false) := by
    rcases hop with rfl | rfl | rfl <;>
      exact ⟨by decide, by decide, by decide⟩
  have hn1 : '\n' ∉ cfgLine "numbercount" (pyStrInt nc) :=
    not_mem_cfgLine '\n' _ _ (by decide) (by decide) pf_nc.2.1
  have hn2 : '\n' ∉ cfgLine "range_lower" (pyStrInt rl) :=
    not_mem_cfgLine '\n' _ _ (by decide) (by decide) pf_rl.2.1
  have hn3 : '\n' ∉ cfgLine "range_upper" (pyStrInt ru) :=
    not_mem_cfgLine '\n' _ _ (by decide) (by decide) pf_ru.2.1
  have hn4 : '\n' ∉ cfgLine "operator" op.data :=
    not_mem_cfgLine '\n' _ _ (by decide) (by decide) pf_op.2.1
  have hn5 : '\n' ∉ cfgLine "time_limit" (pyStrInt tl) :=
    not_mem_cfgLine '\n' _ _ (by decide) (by decide) pf_tl.2.1
  have hsplit : splitOnChar '\n' (write_cfg ⟨nc, rl, ru, op, tl⟩) =
      [cfgLine "numbercount" (pyStrInt nc),
       cfgLine "range_lower" (pyStrInt rl),
       cfgLine "range_upper" (pyStrInt ru),
       cfgLine "operator" op.data,
       cfgLine "time_limit" (pyStrInt tl)] := by
    show splitOnChar '\n'
        (cfgLine "numbercount" (pyStrInt nc) ++ '\n' ::
         (cfgLine "range_lower" (pyStrInt rl) ++ '\n' ::
          (cfgLine "range_upper" (pyStrInt ru) ++ '\n' ::
           (cfgLine "operator" op.data ++ '\n' ::
            cfgLine "time_limit" (pyStrInt tl))))) = _
    rw [splitOnChar_append '\n' _ _ hn1, splitOnChar_append '\n' _ _ hn2,
      splitOnChar_append '\n' _ _ hn3, splitOnChar_append '\n' _ _ hn4,
      splitOnChar_not_mem '\n' _ hn5]
  have ha1 : apply_line CfgAcc.empty
      (cfgLine "numbercount" (pyStrInt nc)) =
      some ⟨some nc, none, none, none, none⟩ := by
    rw [apply_line_cfg _ _ _ (by decide) (by decide) pf_nc.1 pf_nc.2.2,
      if_neg (by decide), parseIntChars_pyStrInt nc hnc0,
      Option.map_some', store_numbercount]
    rfl
  have ha2 : apply_line ⟨some nc, none, none, none, none⟩
      (cfgLine "range_lower" (pyStrInt rl)) =
      some ⟨some nc, some rl, none, none, none⟩ := by
    rw [apply_line_cfg _ _ _ (by decide) (by decide) pf_rl.1 pf_rl.2.2,
      if_neg (by decide), parseIntChars_pyStrInt rl h3,
      Option.map_some', store_range_lower]
  have ha3 : apply_line ⟨some nc, some rl, none, none, none⟩
      (cfgLine "range_upper" (pyStrInt ru)) =
      some ⟨some nc, some rl, some ru, none, none⟩ := by
    rw [apply_line_cfg _ _ _ (by decide) (by decide) pf_ru.1 pf_ru.2.2,
      if_neg (by decide), parseIntChars_pyStrInt ru h5,
      Option.map_some', store_range_upper]
  have ha4 : apply_line ⟨some nc, some rl, some ru, none, none⟩
      (cfgLine "operator" op.data) =
      some ⟨some nc, some rl, some ru, some op.data, none⟩ := by
    rw [apply_line_cfg _ _ _ (by decide) (by decide) pf_op.1 pf_op.2.2,
      if_pos rfl]
  have ha5 : apply_line ⟨some nc, some rl, some ru, some op.data, none⟩
      (cfgLine "time_limit" (pyStrInt tl)) =
      some ⟨some nc, some rl, some ru, some op.data, some tl⟩ := by
    rw [apply_line_cfg _ _ _ (by decide) (by decide) pf_tl.1 pf_tl.2.2,
      if_neg (by decide), parseIntChars_pyStrInt tl h9,
      Option.map_some', store_time_limit]
  unfold read_cfg
  rw [hsplit]
  simp only [List.foldl_cons, List.foldl_nil, Option.some_bind,
    ha1, ha2, ha3, ha4, ha5]

/-- Witness for C7: the round-trip theorem applied at the concrete default
settings record. -/
theorem c7_witness :
    read_cfg (write_cfg defaultSettings) = defaultSettings :=
  c7_roundtrip defaultSettings (by decide) (by decide) (by decide)
    (by decide) (by decide) (by decide) (by decide) (by decide) (by decide)
    (by decide)
